import Mathlib

/-!
# Verification of the `sar_tracker` dashboard renderer (`static/app.js`)

Shallow embedding of the browser-side dashboard renderer. JavaScript values
that can occur in the snapshot payload are modelled by `JSValue` (numbers are
modelled as integers: every numeric value the dashboard handles — status
codes, date fields — is integral). Host primitives used by the code
(`Number`, `String`, `Date.UTC`, `Date.prototype.toISOString`,
`String.prototype.split/replace/match`) are modelled by executable Lean
functions that follow the ECMAScript semantics on the value domain; string
primitives are implemented on character lists so that they evaluate inside
the kernel. The DOM is modelled as a record of the four containers the
script writes. Exceptions are modelled with `Except`.
-/

/-- JavaScript values appearing in the snapshot payload (numbers as integers). -/
inductive JSValue : Type where
  | vNull : JSValue
  | vUndefined : JSValue
  | vBool : Bool → JSValue
  | vNum : Int → JSValue
  | vStr : String → JSValue
deriving DecidableEq, Repr

namespace JSValue

/-- JavaScript truthiness (`!v` is `!toBool v`). -/
def toBool : JSValue → Bool
  | vNull => false
  | vUndefined => false
  | vBool b => b
  | vNum n => n != 0
  | vStr s => s != ""

/-- `String(v)` for the modelled value domain. -/
def jsString : JSValue → String
  | vNull => "null"
  | vUndefined => "undefined"
  | vBool b => if b then "true" else "false"
  | vNum n => toString n
  | vStr s => s

end JSValue

open JSValue

/-- ECMAScript whitespace (the common subset actually reachable here). -/
def isWhitespaceChar (c : Char) : Bool :=
  c = ' ' ∨ c = '\t' ∨ c = '\n' ∨ c = '\r'

/-- Decimal digit test on characters, by code point. -/
def isDigitChar (c : Char) : Bool :=
  48 ≤ c.toNat ∧ c.toNat ≤ 57

/-- Strip leading and trailing whitespace (ECMAScript `String.prototype.trim`). -/
def trimChars (cs : List Char) : List Char :=
  ((cs.dropWhile isWhitespaceChar).reverse.dropWhile isWhitespaceChar).reverse

/-- Value of a list of decimal digits. -/
def digitsVal (ds : List Char) : Int :=
  ds.foldl (fun acc c => 10 * acc + ((c.toNat : Int) - 48)) 0

/-- `p.isPrefixOf s` on character lists (ECMAScript `String.prototype.startsWith`). -/
def prefixList : List Char → List Char → Bool
  | [], _ => true
  | _ :: _, [] => false
  | p :: ps, c :: cs => p = c && prefixList ps cs

/-- Decimal-integer fragment of ECMAScript `Number(string)`: optional
whitespace, optional sign, decimal digits; the empty string is `0`. Strings
that are not (possibly signed) decimal integers — the only numeric strings
the dashboard's status codes use — are mapped to `none` (NaN). -/
def strToNum (s : String) : Option Int :=
  let t := trimChars s.data
  if t = [] then some 0
  else
    let signDigits : Int × List Char :=
      match t with
      | '-' :: rest => (-1, rest)
      | '+' :: rest => (1, rest)
      | _ => (1, t)
    if signDigits.2 ≠ [] ∧ signDigits.2.all isDigitChar then
      some (signDigits.1 * digitsVal signDigits.2)
    else none

/-- ECMAScript `Number(v)` on the modelled domain; `none` is NaN. -/
def toNumber : JSValue → Option Int
  | vNull => some 0
  | vUndefined => none
  | vBool b => some (if b then 1 else 0)
  | vNum n => some n
  | vStr s => strToNum s

/-- `formatStatusCode` from `static/app.js`:
null/undefined/`''` give `''`; otherwise numeric coercion, `4 → "4 - ok"`,
`6 → "6 - not ok"`, other numbers → `String(n)`, NaN → `String(code)`. -/
def formatStatusCode (code : JSValue) : String :=
  if code = vNull ∨ code = vUndefined ∨ code = vStr "" then ""
  else
    match toNumber code with
    | some n =>
      if n = 4 then "4 - ok"
      else if n = 6 then "6 - not ok"
      else toString n
    | none => jsString code

/-- `str.split(' ')` of ECMAScript on character lists: split on each single
space character, keeping empty fields. -/
def splitOnSpaceChars : List Char → List (List Char)
  | [] => [[]]
  | c :: cs =>
    if c = ' ' then [] :: splitOnSpaceChars cs
    else
      match splitOnSpaceChars cs with
      | [] => [[c]]
      | t :: ts => (c :: t) :: ts

/-- `formatLocationStatus` from `static/app.js`:
falsy-but-not-zero input gives `''`; a string starting with `"percentage "`
gives `split(' ')[1] || ls`; anything else gives `String(ls)`.
(The `try`/`catch` in the source can never fire: none of the string
operations in the guarded block throws.) -/
def formatLocationStatus (ls : JSValue) : String :=
  if ¬ toBool ls ∧ ls ≠ vNum 0 then ""
  else
    match ls with
    | vStr s =>
      if prefixList "percentage ".data s.data then
        match (splitOnSpaceChars s.data).drop 1 with
        | [] => s
        | t :: _ => if t.isEmpty then s else ⟨t⟩
      else s
    | v => jsString v

example : formatStatusCode (vNum 4) = "4 - ok" := by decide
example : formatStatusCode (vNum 6) = "6 - not ok" := by decide
example : formatStatusCode (vNum 7) = "7" := by decide
example : formatStatusCode (vStr "") = "" := by decide
example : formatStatusCode (vStr " 4 ") = "4 - ok" := by decide
example : formatStatusCode (vStr "abc") = "abc" := by decide
example : formatStatusCode (vStr "007") = "7" := by decide
example : formatStatusCode (vStr "-6") = "-6" := by decide
example : formatLocationStatus (vStr "percentage 60%") = "60%" := by decide
example : formatLocationStatus (vStr "percentage") = "percentage" := by decide
example : formatLocationStatus vNull = "" := by decide
example : formatLocationStatus (vNum 0) = "0" := by decide
example : formatLocationStatus (vStr "percentage ") = "percentage " := by decide
example : formatLocationStatus (vStr "percentage  60%") = "percentage  60%" := by decide
example : formatLocationStatus (vStr "percentage a b") = "a" := by decide

/-! ## Proleptic-Gregorian date arithmetic (model of `Date.UTC` / `toISOString`) -/

/-- Length of a Gregorian month. -/
def daysInMonth (y m : Int) : Int :=
  if m = 2 then
    if y % 4 = 0 ∧ (y % 100 ≠ 0 ∨ y % 400 = 0) then 29 else 28
  else if m = 4 ∨ m = 6 ∨ m = 9 ∨ m = 11 then 30
  else 31

/-- Days since the Unix epoch of the Gregorian date `(y, m, d)`
(era-based civil-calendar algorithm; the ECMAScript `MakeDay`). -/
def daysFromCivil (y m d : Int) : Int :=
  let y2 := if m ≤ 2 then y - 1 else y
  let era := y2 / 400
  let yoe := y2 - era * 400
  let mp := (m + 9) % 12
  let doy := (153 * mp + 2) / 5 + d - 1
  let doe := yoe * 365 + yoe / 4 - yoe / 100 + doy
  era * 146097 + doe - 719468

/-- Gregorian date of a count of days since the Unix epoch (inverse of
`daysFromCivil`; the date part of ECMAScript `toISOString`). -/
def civilFromDays (z : Int) : Int × Int × Int :=
  let z2 := z + 719468
  let era := z2 / 146097
  let doe := z2 - era * 146097
  let yoe := (doe - doe / 1460 + doe / 36524 - doe / 146096) / 365
  let y := yoe + era * 400
  let doy := doe - (365 * yoe + yoe / 4 - yoe / 100)
  let mp := (5 * doy + 2) / 153
  let d := doy - (153 * mp + 2) / 5 + 1
  let m := if mp < 10 then mp + 3 else mp - 9
  (if m ≤ 2 then y + 1 else y, m, d)

/-- ECMAScript `Date.UTC(y, mo, d, h, mi, s)` in epoch milliseconds:
two-digit years shift by 1900, out-of-range months and days roll over. -/
def dateUTC (y mo d h mi s : Int) : Int :=
  let yr := if 0 ≤ y ∧ y ≤ 99 then y + 1900 else y
  let ym := yr + mo / 12
  let mn := mo % 12
  let days := daysFromCivil ym (mn + 1) 1 + (d - 1)
  days * 86400000 + h * 3600000 + mi * 60000 + s * 1000

/-- Decimal digits of a natural number, most significant first. -/
def natCharsAux : Nat → Nat → List Char → List Char
  | 0, _, acc => acc
  | fuel + 1, n, acc =>
    if n < 10 then Char.ofNat (48 + n) :: acc
    else natCharsAux fuel (n / 10) (Char.ofNat (48 + n % 10) :: acc)

/-- Decimal representation of a natural number as characters. -/
def natChars (n : Nat) : List Char :=
  natCharsAux (n + 1) n []

/-- Zero-padded decimal representation, width `w`. -/
def padNum (w n : Nat) : List Char :=
  List.replicate (w - (natChars n).length) '0' ++ natChars n

/-- ECMAScript `Date.prototype.toISOString` of an epoch-millisecond value:
`YYYY-MM-DDTHH:MM:SS.mmmZ`, with the expanded `±YYYYYY` form outside
years 0–9999. -/
def toISOString (ms : Int) : String :=
  let time := ms % 86400000
  let ymd := civilFromDays (ms / 86400000)
  let hh := time / 3600000
  let mm := time % 3600000 / 60000
  let ss := time % 60000 / 1000
  let mss := time % 1000
  let yearChars :=
    if 0 ≤ ymd.1 ∧ ymd.1 ≤ 9999 then padNum 4 ymd.1.toNat
    else (if ymd.1 < 0 then ['-'] else ['+']) ++ padNum 6 ymd.1.natAbs
  ⟨yearChars ++ '-' :: padNum 2 ymd.2.1.toNat ++ '-' :: padNum 2 ymd.2.2.toNat ++
    'T' :: padNum 2 hh.toNat ++ ':' :: padNum 2 mm.toNat ++ ':' :: padNum 2 ss.toNat ++
    '.' :: padNum 3 mss.toNat ++ ['Z']⟩

/-- ECMAScript `str.replace(pat, repl)` for a one-character pattern:
replace only the first occurrence. -/
def replaceOnceChar (pat : Char) (repl : List Char) : List Char → List Char
  | [] => []
  | c :: cs => if c = pat then repl ++ cs else c :: replaceOnceChar pat repl cs

/-- Numeric value of two digit characters. -/
def dv2 (a b : Char) : Nat := 10 * (a.toNat - 48) + (b.toNat - 48)

/-- Numeric value of four digit characters. -/
def dv4 (a b c d : Char) : Nat := 100 * dv2 a b + dv2 c d

/-- The regex `^(\d{4})(\d{2})(\d{2})T(\d{2})(\d{2})(\d{2})Z$` of
`formatTimestamp`, returning the six captured numbers. -/
def tsParse (s : String) : Option (Nat × Nat × Nat × Nat × Nat × Nat) :=
  match s.data with
  | [y1, y2, y3, y4, o1, o2, d1, d2, t, h1, h2, i1, i2, s1, s2, z] =>
    if t = 'T' ∧ z = 'Z' ∧
        [y1, y2, y3, y4, o1, o2, d1, d2, h1, h2, i1, i2, s1, s2].all isDigitChar then
      some (dv4 y1 y2 y3 y4, dv2 o1 o2, dv2 d1 d2, dv2 h1 h2, dv2 i1 i2, dv2 s1 s2)
    else none
  | _ => none

deriving instance DecidableEq for Except

/-- `formatTimestamp` from `static/app.js`: falsy input gives `''`; a string
matching `YYYYMMDDTHHMMSSZ` is parsed with `Date.UTC` and rendered through
`toISOString().replace('T',' ').replace('Z',' UTC')`; other strings pass
through unchanged; truthy non-strings throw (`ts.match` is not a function). -/
def formatTimestamp (ts : JSValue) : Except Unit JSValue :=
  if ¬ toBool ts then .ok (vStr "")
  else
    match ts with
    | vStr s =>
      match tsParse s with
      | some (y, mo, d, h, mi, sec) =>
        let iso := toISOString (dateUTC y ((mo : Int) - 1) d h mi sec)
        .ok (vStr ⟨replaceOnceChar 'Z' " UTC".data (replaceOnceChar 'T' [' '] iso.data)⟩)
      | none => .ok (vStr s)
    | _ => .error ()

example : formatTimestamp (vStr "20240115T133000Z") =
    .ok (vStr "2024-01-15 13:30:00.000 UTC") := by decide
example : formatTimestamp (vStr "19700101T000000Z") =
    .ok (vStr "1970-01-01 00:00:00.000 UTC") := by decide
example : formatTimestamp (vStr "19690702T120000Z") =
    .ok (vStr "1969-07-02 12:00:00.000 UTC") := by decide
example : formatTimestamp (vStr "20240229T235959Z") =
    .ok (vStr "2024-02-29 23:59:59.000 UTC") := by decide
example : formatTimestamp (vStr "20241301T000000Z") =
    .ok (vStr "2025-01-01 00:00:00.000 UTC") := by decide
example : formatTimestamp (vStr "00500101T000000Z") =
    .ok (vStr "1950-01-01 00:00:00.000 UTC") := by decide
example : formatTimestamp (vStr "not-a-date") = .ok (vStr "not-a-date") := by decide
example : formatTimestamp vNull = .ok (vStr "") := by decide
example : formatTimestamp (vNum 20240115) = .error () := by decide

/-! ## Snapshot data model and rendering pipeline -/

/-- One observation in a team's history (fields as raw JSON values). -/
structure StatusEvent where
  timestamp : JSValue
  location : JSValue
  location_status : JSValue
  transit : JSValue
  status_code : JSValue
deriving DecidableEq, Repr

/-- One entry of the `transmissions` array. -/
structure Transmission where
  timestamp : JSValue
  dest : JSValue
  src : JSValue
  msg : JSValue
deriving DecidableEq, Repr

/-- The `/state` payload. A team's stored history is `none` when the stored
value is falsy (the code reads `s[team] || []`). -/
structure DashboardSnapshot where
  status_by_team : List (String × Option (List StatusEvent))
  location_by_team : List (String × JSValue)
  transmissions : List Transmission
deriving DecidableEq, Repr

/-- `s[team] || []`. -/
def histOf : Option (List StatusEvent) → List StatusEvent
  | none => []
  | some l => l

/-- Property lookup on an object literal: absent keys give `undefined`. -/
def lookupJS (m : List (String × JSValue)) (k : String) : JSValue :=
  (m.lookup k).getD vUndefined

/-- JavaScript `a || b`. -/
def jsOr (a b : JSValue) : JSValue :=
  if toBool a then a else b

/-- Lexicographic comparison of character lists by code point (the default
string comparison of `Array.prototype.sort`; identifiers here are in the
basic plane, where code-point order and UTF-16 code-unit order agree). -/
def charListLe : List Char → List Char → Bool
  | [], _ => true
  | _ :: _, [] => false
  | a :: as, b :: bs =>
    if a.toNat < b.toNat then true
    else if b.toNat < a.toNat then false
    else charListLe as bs

/-- String comparison of the default sort. -/
def strLe (a b : String) : Bool :=
  charListLe a.data b.data

/-- `Object.keys(..).sort()`: ascending lexical sort of the key/value pairs
(a stable structural sort, extensionally the sort the engine performs). -/
def sortPairs {α : Type} (l : List (String × α)) : List (String × α) :=
  l.insertionSort (fun a b => strLe a.1 b.1 = true)

/-- A rendered table: header texts and the visible text of each body cell. -/
structure RTable where
  headers : List String
  cells : List (List String)
deriving DecidableEq, Repr

/-- Visible text of one cell (`makeTable`'s cell rule): null/undefined give
an empty cell; every other value is rendered as its string form (the
brace-delimited monospace branch assigns the same `textContent`, only the
style differs). -/
def cellText : JSValue → String
  | vNull => ""
  | vUndefined => ""
  | v => jsString v

/-- `makeTable` from `static/app.js`: full replacement of the container by a
header row and one row per entry of `rows`. -/
def makeTable (headers : List String) (rows : List (List JSValue)) : RTable :=
  ⟨headers, rows.map (fun r => r.map cellText)⟩

/-- The four DOM containers the script writes. -/
structure DOM where
  currentStatus : RTable
  statusHistory : RTable
  transmissionsTable : RTable
  lastUpdated : String
deriving DecidableEq, Repr

def currentHeaders : List String :=
  ["Team", "Current Location", "Location Status", "Transit", "Status Code", "Updated"]

def histHeaders : List String :=
  ["Team", "Timestamp", "Location", "Location Status", "Transit", "Status Code"]

def txHeaders : List String :=
  ["Timestamp", "Dest", "Src", "Message"]

/-- One Current Status row (`renderState`, first loop): history empty gives
empty event cells; otherwise the last event is formatted
(`formatTimestamp` throws on a truthy non-string timestamp). -/
def currentRow (locs : List (String × JSValue)) (team : String)
    (hist : List StatusEvent) : Except Unit (List JSValue) :=
  match hist.getLast? with
  | none =>
    .ok [vStr team, jsOr (lookupJS locs team) (vStr ""), vStr "", vStr "", vStr "", vStr ""]
  | some cur =>
    match formatTimestamp cur.timestamp with
    | .error e => .error e
    | .ok updated =>
      .ok [vStr team, jsOr (lookupJS locs team) (vStr ""),
        vStr (formatLocationStatus cur.location_status), cur.transit,
        vStr (formatStatusCode cur.status_code), updated]

/-- A `forEach` loop that may throw: rows are produced in order until the
first exception, which aborts the loop. -/
def mapExcept {α β : Type} (f : α → Except Unit β) : List α → Except Unit (List β)
  | [] => .ok []
  | x :: xs =>
    match f x with
    | .error e => .error e
    | .ok r =>
      match mapExcept f xs with
      | .error e => .error e
      | .ok rs => .ok (r :: rs)

/-- All Current Status rows, teams in ascending key order. -/
def buildCurrentRows (snap : DashboardSnapshot) : Except Unit (List (List JSValue)) :=
  mapExcept (fun p => currentRow snap.location_by_team p.1 (histOf p.2))
    (sortPairs snap.status_by_team)

/-- One Status History row. -/
def histRow (team : String) (e : StatusEvent) : Except Unit (List JSValue) :=
  match formatTimestamp e.timestamp with
  | .error er => .error er
  | .ok ts =>
    .ok [vStr team, ts, e.location, vStr (formatLocationStatus e.location_status),
      e.transit, vStr (formatStatusCode e.status_code)]

/-- The (team, event) pairs visited by the Status History loops: teams in
ascending key order, events in stored order. -/
def histPairs (snap : DashboardSnapshot) : List (String × StatusEvent) :=
  (sortPairs snap.status_by_team).flatMap (fun p => (histOf p.2).map (fun e => (p.1, e)))

/-- The `try`-wrapped Status History loop: rows are accumulated until the
first row construction throws; the exception aborts the whole loop and is
then caught and logged. -/
def buildRowsUntilError : List (String × StatusEvent) → List (List JSValue) × Option Unit
  | [] => ([], none)
  | (t, e) :: rest =>
    match histRow t e with
    | .error er => ([], some er)
    | .ok r =>
      let res := buildRowsUntilError rest
      (r :: res.1, res.2)

/-- Status History rows actually rendered, with the caught error if any. -/
def buildHistRows (snap : DashboardSnapshot) : List (List JSValue) × Option Unit :=
  buildRowsUntilError (histPairs snap)

/-- Transmissions rows, in snapshot order (`formatTimestamp` may throw). -/
def buildTxRows (txs : List Transmission) : Except Unit (List (List JSValue)) :=
  mapExcept (fun t =>
    match formatTimestamp t.timestamp with
    | .error er => .error er
    | .ok ts => .ok [ts, t.dest, t.src, t.msg]) txs

/-- `renderState` from `static/app.js` as a DOM transformer, preserving the
write order of the source: Current Status, then Status History (its loop
error caught), then Transmissions, then the status line. An uncaught throw
(second component `some ()`) leaves the remaining containers untouched. -/
def renderState (data : Option DashboardSnapshot) (dom : DOM) (now : String) :
    DOM × Option Unit :=
  match data with
  | none => (dom, none)
  | some snap =>
    match buildCurrentRows snap with
    | .error er => (dom, some er)
    | .ok currentRows =>
      let dom1 := { dom with currentStatus := makeTable currentHeaders currentRows }
      let hist := buildHistRows snap
      let dom2 := { dom1 with statusHistory := makeTable histHeaders hist.1 }
      match buildTxRows snap.transmissions with
      | .error er => (dom2, some er)
      | .ok txRows =>
        let dom3 := { dom2 with transmissionsTable := makeTable txHeaders txRows }
        ({ dom3 with lastUpdated := "Last loaded: " ++ now }, none)

/-- Outcome of the network round trip `fetch('/state')`: transport failure,
or a response with its HTTP success flag and (possibly unparsable) body. -/
inductive FetchOutcome where
  | transportFailure : FetchOutcome
  | response : Bool → Except Unit DashboardSnapshot → FetchOutcome
deriving DecidableEq, Repr

/-- `fetchState` from `static/app.js`: non-ok status and transport/parse
failures are caught and absorbed into `null`. -/
def fetchState : FetchOutcome → Option DashboardSnapshot
  | .transportFailure => none
  | .response ok body =>
    if ok then
      match body with
      | .ok snap => some snap
      | .error _ => none
    else none

/-- `refresh` from `static/app.js`: fetch, then render only when a snapshot
was obtained. -/
def refresh (outcome : FetchOutcome) (dom : DOM) (now : String) : DOM :=
  match fetchState outcome with
  | none => dom
  | some d => (renderState (some d) dom now).1

/-! ## General lemmas about the rendering combinators -/

/-- A value on which `formatTimestamp` cannot throw: a string, or falsy. -/
def tsSafe (v : JSValue) : Bool :=
  (match v with | vStr _ => true | _ => false) || ! toBool v

/-- The value `formatTimestamp` yields on a non-throwing input (used to state
table contents; the default is unreachable on `tsSafe` inputs). -/
def fmtTs (v : JSValue) : JSValue :=
  ((formatTimestamp v).toOption).getD (vStr "")

theorem formatTimestamp_ok_exists (v : JSValue) (h : tsSafe v = true) :
    ∃ u, formatTimestamp v = .ok u := by
  cases v with
  | vStr s =>
    simp only [formatTimestamp]
    split
    · exact ⟨_, rfl⟩
    · cases hp : tsParse s with
      | none => simp only [hp]; exact ⟨_, rfl⟩
      | some p =>
        obtain ⟨y, mo, d, hh, mi, sec⟩ := p
        simp only [hp]
        exact ⟨_, rfl⟩
  | vNull => exact ⟨_, rfl⟩
  | vUndefined => exact ⟨_, rfl⟩
  | vBool b =>
    cases b with
    | false => exact ⟨_, rfl⟩
    | true => simp [tsSafe, JSValue.toBool] at h
  | vNum n =>
    have hn : toBool (vNum n) = false := by
      simp only [tsSafe, Bool.false_or] at h
      simpa using h
    simp only [formatTimestamp, hn]
    exact ⟨_, rfl⟩

theorem formatTimestamp_ok_of_tsSafe (v : JSValue) (h : tsSafe v = true) :
    formatTimestamp v = .ok (fmtTs v) := by
  obtain ⟨u, hu⟩ := formatTimestamp_ok_exists v h
  rw [hu]
  simp [fmtTs, hu, Except.toOption]

theorem mapExcept_ok_of_forall {α β : Type} (f : α → Except Unit β) (g : α → β)
    (l : List α) (h : ∀ x ∈ l, f x = .ok (g x)) :
    mapExcept f l = .ok (l.map g) := by
  induction l with
  | nil => rfl
  | cons x xs ih =>
    have hx := h x (by simp)
    have hxs := ih (fun y hy => h y (by simp [hy]))
    simp [mapExcept, hx, hxs]

theorem mapExcept_ok_length {α β : Type} (f : α → Except Unit β) :
    ∀ (l : List α) (ys : List β), mapExcept f l = .ok ys → ys.length = l.length := by
  intro l
  induction l with
  | nil => intro ys h; cases h; rfl
  | cons x xs ih =>
    intro ys h
    simp only [mapExcept] at h
    cases hfx : f x with
    | error e => rw [hfx] at h; cases h
    | ok r =>
      rw [hfx] at h
      cases hrec : mapExcept f xs with
      | error e => rw [hrec] at h; cases h
      | ok rs =>
        rw [hrec] at h
        cases h
        simp [ih rs hrec]

theorem mapExcept_ok_mem {α β : Type} (f : α → Except Unit β) :
    ∀ (l : List α) (ys : List β), mapExcept f l = .ok ys →
      ∀ y ∈ ys, ∃ x ∈ l, f x = .ok y := by
  intro l
  induction l with
  | nil => intro ys h; cases h; intro y hy; cases hy
  | cons x xs ih =>
    intro ys h
    simp only [mapExcept] at h
    cases hfx : f x with
    | error e => rw [hfx] at h; cases h
    | ok r =>
      rw [hfx] at h
      cases hrec : mapExcept f xs with
      | error e => rw [hrec] at h; cases h
      | ok rs =>
        rw [hrec] at h
        cases h
        intro y hy
        rcases List.mem_cons.mp hy with hy | hy
        · exact ⟨x, by simp, hy ▸ hfx⟩
        · obtain ⟨x', hx', hfx'⟩ := ih rs hrec y hy
          exact ⟨x', by simp [hx'], hfx'⟩

theorem buildRowsUntilError_all_ok (pairs : List (String × StatusEvent))
    (g : String × StatusEvent → List JSValue)
    (h : ∀ x ∈ pairs, histRow x.1 x.2 = .ok (g x)) :
    buildRowsUntilError pairs = (pairs.map g, none) := by
  induction pairs with
  | nil => rfl
  | cons x xs ih =>
    have hx := h x (by simp)
    have hxs := ih (fun y hy => h y (by simp [hy]))
    simp [buildRowsUntilError, hx, hxs]

theorem buildRowsUntilError_stops (pre : List (String × StatusEvent))
    (t : String) (e : StatusEvent) (post : List (String × StatusEvent))
    (g : String × StatusEvent → List JSValue)
    (hpre : ∀ x ∈ pre, histRow x.1 x.2 = .ok (g x))
    (he : histRow t e = .error ()) :
    buildRowsUntilError (pre ++ (t, e) :: post) = (pre.map g, some ()) := by
  induction pre with
  | nil => simp [buildRowsUntilError, he]
  | cons x xs ih =>
    have hx := hpre x (by simp)
    have hxs := ih (fun y hy => hpre y (by simp [hy]))
    simp [buildRowsUntilError, hx, hxs]

theorem charListLe_total : ∀ as bs, charListLe as bs = true ∨ charListLe bs as = true := by
  intro as
  induction as with
  | nil => intro bs; left; rfl
  | cons a as ih =>
    intro bs
    cases bs with
    | nil => right; rfl
    | cons b bs =>
      simp only [charListLe]
      rcases Nat.lt_trichotomy a.toNat b.toNat with h | h | h
      · left; simp [h]
      · rcases ih bs with h2 | h2
        · left; simp [h, h2]
        · right; simp [h.symm, h2]
      · right; simp [h]

theorem charListLe_trans :
    ∀ as bs cs, charListLe as bs = true → charListLe bs cs = true →
      charListLe as cs = true := by
  intro as
  induction as with
  | nil => intro bs cs _ _; rfl
  | cons a as ih =>
    intro bs cs h1 h2
    cases bs with
    | nil => simp [charListLe] at h1
    | cons b bs =>
      cases cs with
      | nil => simp [charListLe] at h2
      | cons c cs =>
        simp only [charListLe] at h1 h2 ⊢
        rcases Nat.lt_trichotomy a.toNat b.toNat with hab | hab | hab <;>
          rcases Nat.lt_trichotomy b.toNat c.toNat with hbc | hbc | hbc
        · simp [show a.toNat < c.toNat by omega]
        · simp [show a.toNat < c.toNat by omega]
        · simp [show ¬ b.toNat < c.toNat by omega, hbc] at h2
        · simp [show a.toNat < c.toNat by omega]
        · simp only [show ¬ a.toNat < b.toNat by omega,
            show ¬ b.toNat < a.toNat by omega, if_neg, ite_false] at h1
          simp only [show ¬ b.toNat < c.toNat by omega,
            show ¬ c.toNat < b.toNat by omega, if_neg, ite_false] at h2
          simp only [show ¬ a.toNat < c.toNat by omega,
            show ¬ c.toNat < a.toNat by omega, if_neg, ite_false]
          exact ih bs cs h1 h2
        · simp [show ¬ b.toNat < c.toNat by omega, hbc] at h2
        · simp [show ¬ a.toNat < b.toNat by omega, hab] at h1
        · simp [show ¬ a.toNat < b.toNat by omega, hab] at h1
        · simp [show ¬ a.toNat < b.toNat by omega, hab] at h1

instance {α : Type} : IsTotal (String × α) (fun a b => strLe a.1 b.1 = true) :=
  ⟨fun a b => charListLe_total a.1.data b.1.data⟩

instance {α : Type} : IsTrans (String × α) (fun a b => strLe a.1 b.1 = true) :=
  ⟨fun _ _ _ hab hbc => charListLe_trans _ _ _ hab hbc⟩

theorem sortPairs_perm {α : Type} (l : List (String × α)) : (sortPairs l).Perm l :=
  List.perm_insertionSort _ l

theorem sortPairs_sorted {α : Type} (l : List (String × α)) :
    List.Pairwise (fun a b : String × α => strLe a.1 b.1 = true) (sortPairs l) :=
  List.sorted_insertionSort _ l

/-! ## Claim theorems -/

/-- **C4**: `formatStatusCode` returns the empty string for empty or null
(and undefined) input; otherwise it attempts numeric coercion and returns
`"4 - ok"` for 4, `"6 - not ok"` for 6, the string form of any other valid
number, and for non-numeric input the string form of the raw value
unchanged — including the spec's concrete cases 4, 6, 7 and `""`. -/
theorem formatStatusCode_spec :
    (formatStatusCode vNull = "" ∧ formatStatusCode vUndefined = "" ∧
      formatStatusCode (vStr "") = "") ∧
    (∀ n : Int, formatStatusCode (vNum n) =
      if n = 4 then "4 - ok" else if n = 6 then "6 - not ok" else toString n) ∧
    (∀ v : JSValue, v ≠ vNull → v ≠ vUndefined → v ≠ vStr "" → ∀ n : Int,
      toNumber v = some n → formatStatusCode v =
        if n = 4 then "4 - ok" else if n = 6 then "6 - not ok" else toString n) ∧
    (∀ v : JSValue, v ≠ vUndefined → toNumber v = none →
      formatStatusCode v = jsString v) ∧
    (formatStatusCode (vNum 4) = "4 - ok" ∧ formatStatusCode (vNum 6) = "6 - not ok" ∧
      formatStatusCode (vNum 7) = "7" ∧ formatStatusCode (vStr "") = "") := by
  refine ⟨by refine ⟨rfl, rfl, rfl⟩, ?_, ?_, ?_, by refine ⟨by decide, by decide, by decide, rfl⟩⟩
  · intro n
    simp [formatStatusCode, toNumber]
  · intro v h1 h2 h3 n hn
    simp only [formatStatusCode]
    rw [if_neg (by simp [h1, h2, h3]), hn]
  · intro v h2 hn
    have h1 : v ≠ vNull := by rintro rfl; simp [toNumber] at hn
    have h3 : v ≠ vStr "" := by
      rintro rfl
      rw [show toNumber (vStr "") = some 0 from by decide] at hn
      cases hn
    simp only [formatStatusCode]
    rw [if_neg (by simp [h1, h2, h3]), hn]

/-- **C5**: `formatLocationStatus` returns the empty string for empty or
null input but returns `"0"` for the number 0; for a string with the literal
prefix `"percentage "` it returns the second space-delimited field when that
field is non-empty and falls back to the whole string otherwise; every other
value is returned in its string form unchanged — including the spec's
concrete cases. -/
theorem formatLocationStatus_spec :
    (formatLocationStatus vNull = "" ∧ formatLocationStatus vUndefined = "" ∧
      formatLocationStatus (vStr "") = "" ∧ formatLocationStatus (vNum 0) = "0") ∧
    (∀ s : String, prefixList "percentage ".data s.data = true →
      ∀ t1 t2 ts, splitOnSpaceChars s.data = t1 :: t2 :: ts →
        formatLocationStatus (vStr s) = if t2 = [] then s else (⟨t2⟩ : String)) ∧
    (∀ s : String, s ≠ "" → prefixList "percentage ".data s.data = false →
      formatLocationStatus (vStr s) = s) ∧
    (∀ n : Int, n ≠ 0 → formatLocationStatus (vNum n) = toString n) ∧
    (formatLocationStatus (vStr "percentage 60%") = "60%" ∧
      formatLocationStatus (vStr "percentage") = "percentage" ∧
      formatLocationStatus vNull = "") := by
  refine ⟨by refine ⟨rfl, rfl, rfl, by decide⟩, ?_, ?_, ?_,
    by refine ⟨by decide, by decide, rfl⟩⟩
  · intro s hpre t1 t2 ts hsplit
    have hs : s ≠ "" := by
      rintro rfl
      simp [prefixList] at hpre
    have hb : toBool (vStr s) = true := by simpa [JSValue.toBool] using hs
    simp only [formatLocationStatus]
    rw [if_neg (by simp [hb]), if_pos hpre, hsplit]
    simp [List.isEmpty_iff]
  · intro s hs hpre
    have hb : toBool (vStr s) = true := by simpa [JSValue.toBool] using hs
    simp only [formatLocationStatus]
    rw [if_neg (by simp [hb]), if_neg (by simp [hpre])]
  · intro n hn
    simp only [formatLocationStatus]
    rw [if_neg (by simp [JSValue.toBool, hn])]
    simp [jsString]

/-- **C2** (counterexample): `formatTimestamp` does not return every
non-matching input unchanged, and it can throw: `null` comes back as the
empty string, and a (truthy) number input throws a `TypeError`. -/
theorem formatTimestamp_passthrough_counterexample :
    formatTimestamp vNull ≠ .ok vNull ∧
    formatTimestamp vNull = .ok (vStr "") ∧
    formatTimestamp (vNum 20240115) = .error () := by
  refine ⟨by decide, rfl, rfl⟩

/-- **C2** (amended): `formatTimestamp` returns the empty string for every
falsy input (null, undefined, `''`, 0, false), returns truthy non-matching
strings unchanged without failing, and throws a `TypeError` on every truthy
non-string input. -/
theorem formatTimestamp_passthrough :
    (∀ v : JSValue, toBool v = false → formatTimestamp v = .ok (vStr "")) ∧
    (∀ s : String, s ≠ "" → tsParse s = none → formatTimestamp (vStr s) = .ok (vStr s)) ∧
    (∀ v : JSValue, toBool v = true → (∀ s : String, v ≠ vStr s) →
      formatTimestamp v = .error ()) := by
  refine ⟨?_, ?_, ?_⟩
  · intro v h
    simp [formatTimestamp, h]
  · intro s hs hp
    have hb : toBool (vStr s) = true := by simpa [JSValue.toBool] using hs
    simp [formatTimestamp, hb, hp]
  · intro v hb hns
    cases v with
    | vStr s => exact absurd rfl (hns s)
    | vNull => cases hb
    | vUndefined => cases hb
    | vBool b => simp [formatTimestamp, hb]
    | vNum n => simp [formatTimestamp, hb]

/-- **C8**: on a non-success HTTP status, a transport failure or an
unparsable body, `fetchState` logs and returns null — the `Option` codomain
of the model carries no exception — and `refresh` then leaves every
previously rendered container unchanged. -/
theorem fetchState_failure_spec :
    (∀ (dom : DOM) (now : String),
      fetchState .transportFailure = none ∧
      refresh .transportFailure dom now = dom) ∧
    (∀ (body : Except Unit DashboardSnapshot) (dom : DOM) (now : String),
      fetchState (.response false body) = none ∧
      refresh (.response false body) dom now = dom) ∧
    (∀ (e : Unit) (dom : DOM) (now : String),
      fetchState (.response true (.error e)) = none ∧
      refresh (.response true (.error e)) dom now = dom) := by
  refine ⟨fun dom now => ⟨rfl, rfl⟩, fun body dom now => ⟨rfl, rfl⟩,
    fun e dom now => ⟨rfl, rfl⟩⟩

/-- **C9**: table rebuilding is idempotent — rendering the same snapshot
twice in succession leaves exactly the visible cell text (headers and body
cells of all three tables) of the first render, because every table write
depends only on the snapshot, never on prior DOM state. -/
theorem renderState_idempotent :
    ∀ (data : Option DashboardSnapshot) (dom : DOM) (now now2 : String),
      ((renderState data (renderState data dom now).1 now2).1.currentStatus =
          (renderState data dom now).1.currentStatus) ∧
      ((renderState data (renderState data dom now).1 now2).1.statusHistory =
          (renderState data dom now).1.statusHistory) ∧
      ((renderState data (renderState data dom now).1 now2).1.transmissionsTable =
          (renderState data dom now).1.transmissionsTable) := by
  intro data dom now now2
  cases data with
  | none => exact ⟨rfl, rfl, rfl⟩
  | some snap =>
    simp only [renderState]
    cases hc : buildCurrentRows snap with
    | error e => exact ⟨rfl, rfl, rfl⟩
    | ok rows =>
      cases ht : buildTxRows snap.transmissions with
      | error e => exact ⟨rfl, rfl, rfl⟩
      | ok tx => exact ⟨rfl, rfl, rfl⟩

/-- `currentRow` reads the location map only at its own team key. -/
theorem currentRow_locs_congr (locs locs2 : List (String × JSValue)) (team : String)
    (hist : List StatusEvent) (h : lookupJS locs team = lookupJS locs2 team) :
    currentRow locs team hist = currentRow locs2 team hist := by
  simp only [currentRow, h]

/-- **C10**: the rendered rows are driven solely by the keys of
`status_by_team` — the Current Status and Status History tables are
unchanged by any change to `location_by_team` outside those keys (so a team
present only in `location_by_team` contributes no row and its location is
never displayed), the Transmissions rows read no location at all, and a team
whose location value is falsy gets the empty string as its Current Location
cell. -/
theorem rows_from_status_keys_only :
    (∀ (smap : List (String × Option (List StatusEvent)))
        (locs locs2 : List (String × JSValue)) (txs txs2 : List Transmission),
      (∀ t, t ∈ smap.map Prod.fst → lookupJS locs t = lookupJS locs2 t) →
      buildCurrentRows ⟨smap, locs, txs⟩ = buildCurrentRows ⟨smap, locs2, txs2⟩ ∧
      buildHistRows ⟨smap, locs, txs⟩ = buildHistRows ⟨smap, locs2, txs2⟩ ∧
      buildTxRows txs = buildTxRows txs) ∧
    (∀ (snap : DashboardSnapshot) (rows : List (List JSValue)),
      buildCurrentRows snap = .ok rows →
      ∀ row ∈ rows, ∀ t : String, row.head? = some (vStr t) →
        toBool (lookupJS snap.location_by_team t) = false →
        row.get? 1 = some (vStr "")) := by
  constructor
  · intro smap locs locs2 txs txs2 hagree
    refine ⟨?_, rfl, rfl⟩
    simp only [buildCurrentRows]
    have : ∀ p ∈ sortPairs smap, lookupJS locs p.1 = lookupJS locs2 p.1 := by
      intro p hp
      exact hagree p.1 (List.mem_map_of_mem Prod.fst ((sortPairs_perm smap).mem_iff.mp hp))
    generalize hl : sortPairs smap = l at this ⊢
    clear hl
    induction l with
    | nil => rfl
    | cons x xs ih =>
      simp only [mapExcept]
      rw [currentRow_locs_congr locs locs2 x.1 (histOf x.2) (this x (by simp)),
        ih (fun p hp => this p (by simp [hp]))]
  · intro snap rows hok row hrow t ht hfalsy
    obtain ⟨p, hp, hcr⟩ := mapExcept_ok_mem _ _ rows hok row hrow
    simp only [currentRow] at hcr
    split at hcr
    · cases hcr
      simp only [List.head?] at ht
      cases ht
      simp [jsOr, hfalsy]
    · split at hcr
      · exact Except.noConfusion hcr
      · cases hcr
        simp only [List.head?] at ht
        cases ht
        simp [jsOr, hfalsy]

/-- Membership in the `histPairs` flattening comes from a team of the map
and an event of its history. -/
theorem histPairs_mem (snap : DashboardSnapshot) (x : String × StatusEvent)
    (hx : x ∈ histPairs snap) :
    ∃ p ∈ snap.status_by_team, x.1 = p.1 ∧ x.2 ∈ histOf p.2 := by
  simp only [histPairs, List.mem_flatMap, List.mem_map] at hx
  obtain ⟨p, hp, e, he, rfl⟩ := hx
  exact ⟨p, (sortPairs_perm _).mem_iff.mp hp, rfl, he⟩

/-- **C6**: for every well-formed snapshot (event timestamps are strings, as
the data model fixes — or at least falsy, so that formatting cannot throw),
the Current Status table has exactly one row per entry of `status_by_team`
— its row count is the number of teams, whatever the history lengths —
teams are in ascending lexical key order, and each row is
[team, current location, formatted location status, transit,
formatted status code, formatted timestamp] of the team's last event, a team
with no history keeping empty strings in the four event-derived columns. -/
theorem currentStatus_table_spec :
    ∀ (snap : DashboardSnapshot),
      (∀ p ∈ snap.status_by_team, ∀ e ∈ histOf p.2, tsSafe e.timestamp = true) →
      ∃ rows, buildCurrentRows snap = .ok rows ∧
        rows.length = snap.status_by_team.length ∧
        List.Pairwise
          (fun a b : String × Option (List StatusEvent) => strLe a.1 b.1 = true)
          (sortPairs snap.status_by_team) ∧
        (sortPairs snap.status_by_team).Perm snap.status_by_team ∧
        rows = (sortPairs snap.status_by_team).map (fun p =>
          match (histOf p.2).getLast? with
          | none => [vStr p.1, jsOr (lookupJS snap.location_by_team p.1) (vStr ""),
              vStr "", vStr "", vStr "", vStr ""]
          | some cur => [vStr p.1, jsOr (lookupJS snap.location_by_team p.1) (vStr ""),
              vStr (formatLocationStatus cur.location_status), cur.transit,
              vStr (formatStatusCode cur.status_code), fmtTs cur.timestamp]) := by
  intro snap hwf
  have hall : ∀ p ∈ sortPairs snap.status_by_team,
      currentRow snap.location_by_team p.1 (histOf p.2) = .ok
        (match (histOf p.2).getLast? with
          | none => [vStr p.1, jsOr (lookupJS snap.location_by_team p.1) (vStr ""),
              vStr "", vStr "", vStr "", vStr ""]
          | some cur => [vStr p.1, jsOr (lookupJS snap.location_by_team p.1) (vStr ""),
              vStr (formatLocationStatus cur.location_status), cur.transit,
              vStr (formatStatusCode cur.status_code), fmtTs cur.timestamp]) := by
    intro p hp
    have hporig := (sortPairs_perm snap.status_by_team).mem_iff.mp hp
    cases hlast : (histOf p.2).getLast? with
    | none => simp only [currentRow, hlast]
    | some cur =>
      have hcur : cur ∈ histOf p.2 := by
        obtain ⟨hne, rfl⟩ := List.mem_getLast?_eq_getLast (l := histOf p.2) (x := cur)
          (by rw [Option.mem_def, hlast])
        exact List.getLast_mem hne
      have hts := formatTimestamp_ok_of_tsSafe cur.timestamp (hwf p hporig cur hcur)
      simp only [currentRow, hlast, hts]
  have hok := mapExcept_ok_of_forall _ _ _ hall
  refine ⟨_, hok, ?_, sortPairs_sorted _, sortPairs_perm _, rfl⟩
  rw [List.length_map, (sortPairs_perm snap.status_by_team).length_eq]

/-- **C7**: for every well-formed snapshot, the Status History table has one
row per (team, event) pair — its row count is the sum of the history
lengths — rows are grouped by team in ascending lexical key order, events of
a team in stored order, and each row is [team, formatted timestamp,
location, formatted location status, transit, formatted status code]. -/
theorem statusHistory_table_spec :
    ∀ (snap : DashboardSnapshot),
      (∀ p ∈ snap.status_by_team, ∀ e ∈ histOf p.2, tsSafe e.timestamp = true) →
      buildHistRows snap = ((sortPairs snap.status_by_team).flatMap (fun p =>
          (histOf p.2).map (fun e =>
            [vStr p.1, fmtTs e.timestamp, e.location,
              vStr (formatLocationStatus e.location_status), e.transit,
              vStr (formatStatusCode e.status_code)])), none) ∧
      (buildHistRows snap).1.length =
        (snap.status_by_team.map (fun p => (histOf p.2).length)).sum ∧
      List.Pairwise
        (fun a b : String × Option (List StatusEvent) => strLe a.1 b.1 = true)
        (sortPairs snap.status_by_team) ∧
      (sortPairs snap.status_by_team).Perm snap.status_by_team := by
  intro snap hwf
  have hall : ∀ x ∈ histPairs snap, histRow x.1 x.2 = .ok
      [vStr x.1, fmtTs x.2.timestamp, x.2.location,
        vStr (formatLocationStatus x.2.location_status), x.2.transit,
        vStr (formatStatusCode x.2.status_code)] := by
    intro x hx
    obtain ⟨p, hp, hx1, hx2⟩ := histPairs_mem snap x hx
    simp only [histRow]
    rw [formatTimestamp_ok_of_tsSafe _ (hwf p hp x.2 hx2)]
  have heq := buildRowsUntilError_all_ok (histPairs snap)
    (fun x => [vStr x.1, fmtTs x.2.timestamp, x.2.location,
      vStr (formatLocationStatus x.2.location_status), x.2.transit,
      vStr (formatStatusCode x.2.status_code)]) hall
  have hmain : buildHistRows snap = ((sortPairs snap.status_by_team).flatMap (fun p =>
      (histOf p.2).map (fun e =>
        [vStr p.1, fmtTs e.timestamp, e.location,
          vStr (formatLocationStatus e.location_status), e.transit,
          vStr (formatStatusCode e.status_code)])), none) := by
    rw [buildHistRows, heq]
    simp only [histPairs, List.map_flatMap, List.map_map]
    rfl
  refine ⟨hmain, ?_, sortPairs_sorted _, sortPairs_perm _⟩
  rw [hmain]
  simp only [List.length_flatMap, List.map_map]
  have hcomp : (List.length ∘ fun p : String × Option (List StatusEvent) =>
      (histOf p.2).map (fun e => [vStr p.1, fmtTs e.timestamp, e.location,
        vStr (formatLocationStatus e.location_status), e.transit,
        vStr (formatStatusCode e.status_code)])) =
      fun p : String × Option (List StatusEvent) => (histOf p.2).length := by
    funext p
    simp [Function.comp]
  rw [hcomp]
  exact ((sortPairs_perm snap.status_by_team).map _).sum_eq

/-- One-team example snapshot (the spec's end-to-end example). -/
def exSnap : DashboardSnapshot :=
  ⟨[("A", some [⟨vStr "20240101T000000Z", vNull, vStr "percentage 50%",
      vStr "bus", vNum 4⟩])],
    [("A", vStr "HQ")], []⟩

/-- **C6** (witness): on the spec's end-to-end snapshot the Current Status
table is the single expected row (with the milliseconds the code emits). -/
theorem currentStatus_table_spec_witness :
    buildCurrentRows exSnap =
      .ok [[vStr "A", vStr "HQ", vStr "50%", vStr "bus", vStr "4 - ok",
        vStr "2024-01-01 00:00:00.000 UTC"]] := by
  obtain ⟨rows, hok, -, -, -, hrows⟩ := currentStatus_table_spec exSnap (by decide)
  rw [hok, hrows]
  decide

/-- **C7** (witness): on the same snapshot the Status History table is the
single expected row and its row count is the summed history length. -/
theorem statusHistory_table_spec_witness :
    buildHistRows exSnap =
      ([[vStr "A", vStr "2024-01-01 00:00:00.000 UTC", vNull, vStr "50%",
        vStr "bus", vStr "4 - ok"]], none) ∧
    (buildHistRows exSnap).1.length =
      (exSnap.status_by_team.map (fun p => (histOf p.2).length)).sum := by
  obtain ⟨hmain, hlen, -, -⟩ := statusHistory_table_spec exSnap (by decide)
  exact ⟨hmain.trans (by decide), hlen⟩

def evGoodA : StatusEvent :=
  ⟨vStr "20240101T000000Z", vStr "base", vStr "percentage 50%", vStr "foot", vNum 4⟩

/-- An event whose numeric timestamp makes `formatTimestamp` throw. -/
def evBadA : StatusEvent := ⟨vNum 5, vNull, vNull, vNull, vNull⟩

def evGoodB : StatusEvent :=
  ⟨vStr "20240102T120000Z", vStr "camp", vNull, vStr "bus", vNum 6⟩

/-- Example snapshot where team "a"'s second event throws during history
construction while team "b"'s event is perfectly formattable. -/
def exSnapAbort : DashboardSnapshot :=
  ⟨[("a", some [evGoodA, evBadA]), ("b", some [evGoodB])], [], []⟩

/-- **C3** (counterexample): when building team "a"'s second row fails, the
loop aborts: team "b"'s row — a sibling row for a later team, itself
perfectly buildable — is NOT in the rendered Status History, which keeps
only the row built before the failure. -/
theorem statusHistory_abort_counterexample :
    buildHistRows exSnapAbort =
      ([[vStr "a", vStr "2024-01-01 00:00:00.000 UTC", vStr "base", vStr "50%",
        vStr "foot", vStr "4 - ok"]], some ()) ∧
    histRow "b" evGoodB =
      .ok [vStr "b", vStr "2024-01-02 12:00:00.000 UTC", vStr "camp", vStr "",
        vStr "bus", vStr "6 - not ok"] ∧
    (∀ row ∈ (buildHistRows exSnapAbort).1, row.head? ≠ some (vStr "b")) := by
  refine ⟨by decide, by decide, by decide⟩

/-- **C3** (amended): a failure while building one (team, event) row of the
Status History is caught and logged, the rows already built before it are
kept and rendered, and the other two tables and the status line are still
written — but the remaining history rows (later events and later teams) are
not built, because the `try` wraps the whole loop. -/
theorem statusHistory_row_failure :
    ∀ (snap : DashboardSnapshot) (pre : List (String × StatusEvent)) (t : String)
      (e : StatusEvent) (post : List (String × StatusEvent))
      (g : String × StatusEvent → List JSValue),
      histPairs snap = pre ++ (t, e) :: post →
      (∀ x ∈ pre, histRow x.1 x.2 = .ok (g x)) →
      histRow t e = .error () →
      buildHistRows snap = (pre.map g, some ()) ∧
      (∀ (dom : DOM) (now : String) (curRows txRows : List (List JSValue)),
        buildCurrentRows snap = .ok curRows →
        buildTxRows snap.transmissions = .ok txRows →
        renderState (some snap) dom now =
          ({ currentStatus := makeTable currentHeaders curRows,
             statusHistory := makeTable histHeaders (pre.map g),
             transmissionsTable := makeTable txHeaders txRows,
             lastUpdated := "Last loaded: " ++ now }, none)) := by
  intro snap pre t e post g hsplit hpre herr
  have h1 : buildHistRows snap = (pre.map g, some ()) := by
    rw [buildHistRows, hsplit]
    exact buildRowsUntilError_stops pre t e post g hpre herr
  refine ⟨h1, ?_⟩
  intro dom now curRows txRows hcur htx
  simp only [renderState, hcur, htx, h1]

/-- **C3** (amended, witness): the amended behaviour at the concrete
aborting snapshot. -/
theorem statusHistory_row_failure_witness :
    buildHistRows exSnapAbort =
      ([[vStr "a", vStr "2024-01-01 00:00:00.000 UTC", vStr "base", vStr "50%",
        vStr "foot", vStr "4 - ok"]], some ()) := by
  have h := statusHistory_row_failure exSnapAbort [("a", evGoodA)] "a" evBadA
    [("b", evGoodB)]
    (fun _ => [vStr "a", vStr "2024-01-01 00:00:00.000 UTC", vStr "base", vStr "50%",
      vStr "foot", vStr "4 - ok"])
    (by decide) (by decide) (by decide)
  exact h.1.trans (by decide)

/-! ## Correctness of the date arithmetic -/

set_option maxHeartbeats 1000000 in
/-- Recovery of the year-of-era from the day-of-era in the civil-calendar
algorithm. -/
theorem yearOfEra_recover (yoe doy doe : Int)
    (h1 : 0 ≤ yoe) (h2 : yoe ≤ 399) (h3 : 0 ≤ doy)
    (h4 : doy ≤ 364 ∨ (doy = 365 ∧ (yoe + 1) % 4 = 0 ∧ ((yoe + 1) % 100 ≠ 0 ∨ yoe = 399)))
    (hdoe : doe = yoe * 365 + yoe / 4 - yoe / 100 + doy) :
    (doe - doe / 1460 + doe / 36524 - doe / 146096) / 365 = yoe := by
  obtain ⟨c, p, q, hc0, hc1, hp0, hp1, hq0, hq1, hsum, hy⟩ :
      ∃ c p q, 0 ≤ c ∧ c ≤ 3 ∧ 0 ≤ p ∧ p ≤ 24 ∧ 0 ≤ q ∧ q ≤ 3 ∧ 4 * p + q ≤ 99 ∧
        yoe = 100 * c + 4 * p + q :=
    ⟨yoe / 100, yoe % 100 / 4, yoe % 100 % 4, by omega, by omega, by omega, by omega,
      by omega, by omega, by omega, by omega⟩
  have hdoe2 : doe = 36524 * c + 1461 * p + 365 * q + doy := by omega
  by_cases hex : c = 3 ∧ p = 24 ∧ q = 3 ∧ doy = 365
  · have hde : doe = 146096 := by omega
    rw [hde]
    omega
  · have hkey : ¬(p = 24 ∧ q = 3 ∧ doy = 365) := by
      rintro ⟨rfl, rfl, rfl⟩
      omega
    have h146096 : doe / 146096 = 0 := by omega
    have h36524 : doe / 36524 = c := by omega
    by_cases h14 : 24 * c + p + 365 * q + doy ≤ 1459
    · have h1460 : doe / 1460 = 25 * c + p := by omega
      rw [h1460, h36524, h146096]
      omega
    · have h1460 : doe / 1460 = 25 * c + p + 1 := by omega
      rw [h1460, h36524, h146096]
      omega


set_option maxHeartbeats 2000000 in
/-- `civilFromDays` inverts the era/year-of-era/shifted-month encoding of a
valid date. -/
theorem civilFromDays_eq (era yoe mp dd doy : Int)
    (h0 : 0 ≤ yoe) (h1 : yoe ≤ 399)
    (hmp0 : 0 ≤ mp) (hmp1 : mp ≤ 11)
    (hdd : 1 ≤ dd)
    (hdoy : doy = (153 * mp + 2) / 5 + dd - 1)
    (hbound : doy ≤ 364 ∨
      (doy = 365 ∧ (yoe + 1) % 4 = 0 ∧ ((yoe + 1) % 100 ≠ 0 ∨ yoe = 399)))
    (hnext : mp ≤ 10 → doy < (153 * (mp + 1) + 2) / 5) :
    civilFromDays (era * 146097 + (yoe * 365 + yoe / 4 - yoe / 100 + doy) - 719468) =
      (if (if mp < 10 then mp + 3 else mp - 9) ≤ 2 then yoe + era * 400 + 1
        else yoe + era * 400,
       if mp < 10 then mp + 3 else mp - 9, dd) := by
  have hdoy0 : 0 ≤ doy := by omega
  simp only [civilFromDays, Prod.mk.injEq]
  set z2 := era * 146097 + (yoe * 365 + yoe / 4 - yoe / 100 + doy) - 719468 + 719468
    with hz2
  have hD : z2 - z2 / 146097 * 146097 = yoe * 365 + yoe / 4 - yoe / 100 + doy := by
    omega
  have hrec := yearOfEra_recover yoe doy (z2 - z2 / 146097 * 146097) h0 h1 hdoy0 hbound hD
  rw [hrec]
  have hera : z2 / 146097 = era := by omega
  rw [hera]
  have hdoy' : z2 - era * 146097 - (365 * yoe + yoe / 4 - yoe / 100) = doy := by omega
  rw [hdoy']
  interval_cases mp <;>
    [skip; skip; skip; skip; skip; skip; skip; skip; skip; skip; skip; skip] <;>
  · first
    | (rw [show (5 * doy + 2) / 153 = 0 from by omega]; norm_num; omega)
    | (rw [show (5 * doy + 2) / 153 = 1 from by omega]; norm_num; omega)
    | (rw [show (5 * doy + 2) / 153 = 2 from by omega]; norm_num; omega)
    | (rw [show (5 * doy + 2) / 153 = 3 from by omega]; norm_num; omega)
    | (rw [show (5 * doy + 2) / 153 = 4 from by omega]; norm_num; omega)
    | (rw [show (5 * doy + 2) / 153 = 5 from by omega]; norm_num; omega)
    | (rw [show (5 * doy + 2) / 153 = 6 from by omega]; norm_num; omega)
    | (rw [show (5 * doy + 2) / 153 = 7 from by omega]; norm_num; omega)
    | (rw [show (5 * doy + 2) / 153 = 8 from by omega]; norm_num; omega)
    | (rw [show (5 * doy + 2) / 153 = 9 from by omega]; norm_num; omega)
    | (rw [show (5 * doy + 2) / 153 = 10 from by omega]; norm_num; omega)
    | (rw [show (5 * doy + 2) / 153 = 11 from by omega]; norm_num; omega)


set_option maxHeartbeats 4000000 in
/-- `civilFromDays` is a left inverse of `daysFromCivil` on valid dates. -/
theorem civil_roundtrip (y m d : Int) (hm1 : 1 ≤ m) (hm2 : m ≤ 12)
    (hd1 : 1 ≤ d) (hd2 : d ≤ daysInMonth y m) :
    civilFromDays (daysFromCivil y m d) = (y, m, d) := by
  interval_cases m
  · simp only [daysInMonth] at hd2
    norm_num at hd2
    simp only [daysFromCivil]
    rw [if_pos (by norm_num : (1 : Int) ≤ 2)]
    obtain ⟨era, yoe, hsplit, hyoe0, hyoe1⟩ :
        ∃ era yoe, y - 1 = era * 400 + yoe ∧ 0 ≤ yoe ∧ yoe ≤ 399 :=
      ⟨(y - 1) / 400, (y - 1) % 400, by omega, by omega, by omega⟩
    rw [show (y - 1) / 400 = era from by omega]
    rw [show y - 1 - era * 400 = yoe from by omega]
    have hb : (153 * ((1 + 9) % 12) + 2) / 5 + d - 1 ≤ 364 ∨
        ((153 * ((1 + 9) % 12) + 2) / 5 + d - 1 = 365 ∧ (yoe + 1) % 4 = 0 ∧
          ((yoe + 1) % 100 ≠ 0 ∨ yoe = 399)) := by omega
    have hn : ((1 : Int) + 9) % 12 ≤ 10 →
        (153 * ((1 + 9) % 12) + 2) / 5 + d - 1 <
          (153 * (((1 + 9) % 12) + 1) + 2) / 5 := by omega
    rw [civilFromDays_eq era yoe ((1 + 9) % 12) d
      ((153 * ((1 + 9) % 12) + 2) / 5 + d - 1)
      hyoe0 hyoe1 (by decide) (by decide) hd1 rfl hb hn]
    rw [show ((1 : Int) + 9) % 12 = 10 from by decide]
    norm_num [Prod.mk.injEq]
    omega
  · simp only [daysInMonth] at hd2
    norm_num at hd2
    simp only [daysFromCivil]
    rw [if_pos (by norm_num : (2 : Int) ≤ 2)]
    have hd2' : d ≤ 28 ∨ (d ≤ 29 ∧ y % 4 = 0 ∧ (y % 100 ≠ 0 ∨ y % 400 = 0)) := by
      by_cases hleap : 4 ∣ y ∧ (¬ 100 ∣ y ∨ 400 ∣ y)
      · rw [if_pos hleap] at hd2
        obtain ⟨h4, h100⟩ := hleap
        right
        exact ⟨hd2, by omega, by omega⟩
      · rw [if_neg hleap] at hd2
        left
        exact hd2
    obtain ⟨era, yoe, hsplit, hyoe0, hyoe1⟩ :
        ∃ era yoe, y - 1 = era * 400 + yoe ∧ 0 ≤ yoe ∧ yoe ≤ 399 :=
      ⟨(y - 1) / 400, (y - 1) % 400, by omega, by omega, by omega⟩
    rw [show (y - 1) / 400 = era from by omega]
    rw [show y - 1 - era * 400 = yoe from by omega]
    have hb : (153 * ((2 + 9) % 12) + 2) / 5 + d - 1 ≤ 364 ∨
        ((153 * ((2 + 9) % 12) + 2) / 5 + d - 1 = 365 ∧ (yoe + 1) % 4 = 0 ∧
          ((yoe + 1) % 100 ≠ 0 ∨ yoe = 399)) := by omega
    have hn : ((2 : Int) + 9) % 12 ≤ 10 →
        (153 * ((2 + 9) % 12) + 2) / 5 + d - 1 <
          (153 * (((2 + 9) % 12) + 1) + 2) / 5 := by omega
    rw [civilFromDays_eq era yoe ((2 + 9) % 12) d
      ((153 * ((2 + 9) % 12) + 2) / 5 + d - 1)
      hyoe0 hyoe1 (by decide) (by decide) hd1 rfl hb hn]
    rw [show ((2 : Int) + 9) % 12 = 11 from by decide]
    norm_num [Prod.mk.injEq]
    omega
  · simp only [daysInMonth] at hd2
    norm_num at hd2
    simp only [daysFromCivil]
    rw [if_neg (by norm_num : ¬ (3 : Int) ≤ 2)]
    obtain ⟨era, yoe, hsplit, hyoe0, hyoe1⟩ :
        ∃ era yoe, y = era * 400 + yoe ∧ 0 ≤ yoe ∧ yoe ≤ 399 :=
      ⟨(y) / 400, (y) % 400, by omega, by omega, by omega⟩
    rw [show (y) / 400 = era from by omega]
    rw [show y - era * 400 = yoe from by omega]
    have hb : (153 * ((3 + 9) % 12) + 2) / 5 + d - 1 ≤ 364 ∨
        ((153 * ((3 + 9) % 12) + 2) / 5 + d - 1 = 365 ∧ (yoe + 1) % 4 = 0 ∧
          ((yoe + 1) % 100 ≠ 0 ∨ yoe = 399)) := by omega
    have hn : ((3 : Int) + 9) % 12 ≤ 10 →
        (153 * ((3 + 9) % 12) + 2) / 5 + d - 1 <
          (153 * (((3 + 9) % 12) + 1) + 2) / 5 := by omega
    rw [civilFromDays_eq era yoe ((3 + 9) % 12) d
      ((153 * ((3 + 9) % 12) + 2) / 5 + d - 1)
      hyoe0 hyoe1 (by decide) (by decide) hd1 rfl hb hn]
    rw [show ((3 : Int) + 9) % 12 = 0 from by decide]
    norm_num [Prod.mk.injEq]
    omega
  · simp only [daysInMonth] at hd2
    norm_num at hd2
    simp only [daysFromCivil]
    rw [if_neg (by norm_num : ¬ (4 : Int) ≤ 2)]
    obtain ⟨era, yoe, hsplit, hyoe0, hyoe1⟩ :
        ∃ era yoe, y = era * 400 + yoe ∧ 0 ≤ yoe ∧ yoe ≤ 399 :=
      ⟨(y) / 400, (y) % 400, by omega, by omega, by omega⟩
    rw [show (y) / 400 = era from by omega]
    rw [show y - era * 400 = yoe from by omega]
    have hb : (153 * ((4 + 9) % 12) + 2) / 5 + d - 1 ≤ 364 ∨
        ((153 * ((4 + 9) % 12) + 2) / 5 + d - 1 = 365 ∧ (yoe + 1) % 4 = 0 ∧
          ((yoe + 1) % 100 ≠ 0 ∨ yoe = 399)) := by omega
    have hn : ((4 : Int) + 9) % 12 ≤ 10 →
        (153 * ((4 + 9) % 12) + 2) / 5 + d - 1 <
          (153 * (((4 + 9) % 12) + 1) + 2) / 5 := by omega
    rw [civilFromDays_eq era yoe ((4 + 9) % 12) d
      ((153 * ((4 + 9) % 12) + 2) / 5 + d - 1)
      hyoe0 hyoe1 (by decide) (by decide) hd1 rfl hb hn]
    rw [show ((4 : Int) + 9) % 12 = 1 from by decide]
    norm_num [Prod.mk.injEq]
    omega
  · simp only [daysInMonth] at hd2
    norm_num at hd2
    simp only [daysFromCivil]
    rw [if_neg (by norm_num : ¬ (5 : Int) ≤ 2)]
    obtain ⟨era, yoe, hsplit, hyoe0, hyoe1⟩ :
        ∃ era yoe, y = era * 400 + yoe ∧ 0 ≤ yoe ∧ yoe ≤ 399 :=
      ⟨(y) / 400, (y) % 400, by omega, by omega, by omega⟩
    rw [show (y) / 400 = era from by omega]
    rw [show y - era * 400 = yoe from by omega]
    have hb : (153 * ((5 + 9) % 12) + 2) / 5 + d - 1 ≤ 364 ∨
        ((153 * ((5 + 9) % 12) + 2) / 5 + d - 1 = 365 ∧ (yoe + 1) % 4 = 0 ∧
          ((yoe + 1) % 100 ≠ 0 ∨ yoe = 399)) := by omega
    have hn : ((5 : Int) + 9) % 12 ≤ 10 →
        (153 * ((5 + 9) % 12) + 2) / 5 + d - 1 <
          (153 * (((5 + 9) % 12) + 1) + 2) / 5 := by omega
    rw [civilFromDays_eq era yoe ((5 + 9) % 12) d
      ((153 * ((5 + 9) % 12) + 2) / 5 + d - 1)
      hyoe0 hyoe1 (by decide) (by decide) hd1 rfl hb hn]
    rw [show ((5 : Int) + 9) % 12 = 2 from by decide]
    norm_num [Prod.mk.injEq]
    omega
  · simp only [daysInMonth] at hd2
    norm_num at hd2
    simp only [daysFromCivil]
    rw [if_neg (by norm_num : ¬ (6 : Int) ≤ 2)]
    obtain ⟨era, yoe, hsplit, hyoe0, hyoe1⟩ :
        ∃ era yoe, y = era * 400 + yoe ∧ 0 ≤ yoe ∧ yoe ≤ 399 :=
      ⟨(y) / 400, (y) % 400, by omega, by omega, by omega⟩
    rw [show (y) / 400 = era from by omega]
    rw [show y - era * 400 = yoe from by omega]
    have hb : (153 * ((6 + 9) % 12) + 2) / 5 + d - 1 ≤ 364 ∨
        ((153 * ((6 + 9) % 12) + 2) / 5 + d - 1 = 365 ∧ (yoe + 1) % 4 = 0 ∧
          ((yoe + 1) % 100 ≠ 0 ∨ yoe = 399)) := by omega
    have hn : ((6 : Int) + 9) % 12 ≤ 10 →
        (153 * ((6 + 9) % 12) + 2) / 5 + d - 1 <
          (153 * (((6 + 9) % 12) + 1) + 2) / 5 := by omega
    rw [civilFromDays_eq era yoe ((6 + 9) % 12) d
      ((153 * ((6 + 9) % 12) + 2) / 5 + d - 1)
      hyoe0 hyoe1 (by decide) (by decide) hd1 rfl hb hn]
    rw [show ((6 : Int) + 9) % 12 = 3 from by decide]
    norm_num [Prod.mk.injEq]
    omega
  · simp only [daysInMonth] at hd2
    norm_num at hd2
    simp only [daysFromCivil]
    rw [if_neg (by norm_num : ¬ (7 : Int) ≤ 2)]
    obtain ⟨era, yoe, hsplit, hyoe0, hyoe1⟩ :
        ∃ era yoe, y = era * 400 + yoe ∧ 0 ≤ yoe ∧ yoe ≤ 399 :=
      ⟨(y) / 400, (y) % 400, by omega, by omega, by omega⟩
    rw [show (y) / 400 = era from by omega]
    rw [show y - era * 400 = yoe from by omega]
    have hb : (153 * ((7 + 9) % 12) + 2) / 5 + d - 1 ≤ 364 ∨
        ((153 * ((7 + 9) % 12) + 2) / 5 + d - 1 = 365 ∧ (yoe + 1) % 4 = 0 ∧
          ((yoe + 1) % 100 ≠ 0 ∨ yoe = 399)) := by omega
    have hn : ((7 : Int) + 9) % 12 ≤ 10 →
        (153 * ((7 + 9) % 12) + 2) / 5 + d - 1 <
          (153 * (((7 + 9) % 12) + 1) + 2) / 5 := by omega
    rw [civilFromDays_eq era yoe ((7 + 9) % 12) d
      ((153 * ((7 + 9) % 12) + 2) / 5 + d - 1)
      hyoe0 hyoe1 (by decide) (by decide) hd1 rfl hb hn]
    rw [show ((7 : Int) + 9) % 12 = 4 from by decide]
    norm_num [Prod.mk.injEq]
    omega
  · simp only [daysInMonth] at hd2
    norm_num at hd2
    simp only [daysFromCivil]
    rw [if_neg (by norm_num : ¬ (8 : Int) ≤ 2)]
    obtain ⟨era, yoe, hsplit, hyoe0, hyoe1⟩ :
        ∃ era yoe, y = era * 400 + yoe ∧ 0 ≤ yoe ∧ yoe ≤ 399 :=
      ⟨(y) / 400, (y) % 400, by omega, by omega, by omega⟩
    rw [show (y) / 400 = era from by omega]
    rw [show y - era * 400 = yoe from by omega]
    have hb : (153 * ((8 + 9) % 12) + 2) / 5 + d - 1 ≤ 364 ∨
        ((153 * ((8 + 9) % 12) + 2) / 5 + d - 1 = 365 ∧ (yoe + 1) % 4 = 0 ∧
          ((yoe + 1) % 100 ≠ 0 ∨ yoe = 399)) := by omega
    have hn : ((8 : Int) + 9) % 12 ≤ 10 →
        (153 * ((8 + 9) % 12) + 2) / 5 + d - 1 <
          (153 * (((8 + 9) % 12) + 1) + 2) / 5 := by omega
    rw [civilFromDays_eq era yoe ((8 + 9) % 12) d
      ((153 * ((8 + 9) % 12) + 2) / 5 + d - 1)
      hyoe0 hyoe1 (by decide) (by decide) hd1 rfl hb hn]
    rw [show ((8 : Int) + 9) % 12 = 5 from by decide]
    norm_num [Prod.mk.injEq]
    omega
  · simp only [daysInMonth] at hd2
    norm_num at hd2
    simp only [daysFromCivil]
    rw [if_neg (by norm_num : ¬ (9 : Int) ≤ 2)]
    obtain ⟨era, yoe, hsplit, hyoe0, hyoe1⟩ :
        ∃ era yoe, y = era * 400 + yoe ∧ 0 ≤ yoe ∧ yoe ≤ 399 :=
      ⟨(y) / 400, (y) % 400, by omega, by omega, by omega⟩
    rw [show (y) / 400 = era from by omega]
    rw [show y - era * 400 = yoe from by omega]
    have hb : (153 * ((9 + 9) % 12) + 2) / 5 + d - 1 ≤ 364 ∨
        ((153 * ((9 + 9) % 12) + 2) / 5 + d - 1 = 365 ∧ (yoe + 1) % 4 = 0 ∧
          ((yoe + 1) % 100 ≠ 0 ∨ yoe = 399)) := by omega
    have hn : ((9 : Int) + 9) % 12 ≤ 10 →
        (153 * ((9 + 9) % 12) + 2) / 5 + d - 1 <
          (153 * (((9 + 9) % 12) + 1) + 2) / 5 := by omega
    rw [civilFromDays_eq era yoe ((9 + 9) % 12) d
      ((153 * ((9 + 9) % 12) + 2) / 5 + d - 1)
      hyoe0 hyoe1 (by decide) (by decide) hd1 rfl hb hn]
    rw [show ((9 : Int) + 9) % 12 = 6 from by decide]
    norm_num [Prod.mk.injEq]
    omega
  · simp only [daysInMonth] at hd2
    norm_num at hd2
    simp only [daysFromCivil]
    rw [if_neg (by norm_num : ¬ (10 : Int) ≤ 2)]
    obtain ⟨era, yoe, hsplit, hyoe0, hyoe1⟩ :
        ∃ era yoe, y = era * 400 + yoe ∧ 0 ≤ yoe ∧ yoe ≤ 399 :=
      ⟨(y) / 400, (y) % 400, by omega, by omega, by omega⟩
    rw [show (y) / 400 = era from by omega]
    rw [show y - era * 400 = yoe from by omega]
    have hb : (153 * ((10 + 9) % 12) + 2) / 5 + d - 1 ≤ 364 ∨
        ((153 * ((10 + 9) % 12) + 2) / 5 + d - 1 = 365 ∧ (yoe + 1) % 4 = 0 ∧
          ((yoe + 1) % 100 ≠ 0 ∨ yoe = 399)) := by omega
    have hn : ((10 : Int) + 9) % 12 ≤ 10 →
        (153 * ((10 + 9) % 12) + 2) / 5 + d - 1 <
          (153 * (((10 + 9) % 12) + 1) + 2) / 5 := by omega
    rw [civilFromDays_eq era yoe ((10 + 9) % 12) d
      ((153 * ((10 + 9) % 12) + 2) / 5 + d - 1)
      hyoe0 hyoe1 (by decide) (by decide) hd1 rfl hb hn]
    rw [show ((10 : Int) + 9) % 12 = 7 from by decide]
    norm_num [Prod.mk.injEq]
    omega
  · simp only [daysInMonth] at hd2
    norm_num at hd2
    simp only [daysFromCivil]
    rw [if_neg (by norm_num : ¬ (11 : Int) ≤ 2)]
    obtain ⟨era, yoe, hsplit, hyoe0, hyoe1⟩ :
        ∃ era yoe, y = era * 400 + yoe ∧ 0 ≤ yoe ∧ yoe ≤ 399 :=
      ⟨(y) / 400, (y) % 400, by omega, by omega, by omega⟩
    rw [show (y) / 400 = era from by omega]
    rw [show y - era * 400 = yoe from by omega]
    have hb : (153 * ((11 + 9) % 12) + 2) / 5 + d - 1 ≤ 364 ∨
        ((153 * ((11 + 9) % 12) + 2) / 5 + d - 1 = 365 ∧ (yoe + 1) % 4 = 0 ∧
          ((yoe + 1) % 100 ≠ 0 ∨ yoe = 399)) := by omega
    have hn : ((11 : Int) + 9) % 12 ≤ 10 →
        (153 * ((11 + 9) % 12) + 2) / 5 + d - 1 <
          (153 * (((11 + 9) % 12) + 1) + 2) / 5 := by omega
    rw [civilFromDays_eq era yoe ((11 + 9) % 12) d
      ((153 * ((11 + 9) % 12) + 2) / 5 + d - 1)
      hyoe0 hyoe1 (by decide) (by decide) hd1 rfl hb hn]
    rw [show ((11 : Int) + 9) % 12 = 8 from by decide]
    norm_num [Prod.mk.injEq]
    omega
  · simp only [daysInMonth] at hd2
    norm_num at hd2
    simp only [daysFromCivil]
    rw [if_neg (by norm_num : ¬ (12 : Int) ≤ 2)]
    obtain ⟨era, yoe, hsplit, hyoe0, hyoe1⟩ :
        ∃ era yoe, y = era * 400 + yoe ∧ 0 ≤ yoe ∧ yoe ≤ 399 :=
      ⟨(y) / 400, (y) % 400, by omega, by omega, by omega⟩
    rw [show (y) / 400 = era from by omega]
    rw [show y - era * 400 = yoe from by omega]
    have hb : (153 * ((12 + 9) % 12) + 2) / 5 + d - 1 ≤ 364 ∨
        ((153 * ((12 + 9) % 12) + 2) / 5 + d - 1 = 365 ∧ (yoe + 1) % 4 = 0 ∧
          ((yoe + 1) % 100 ≠ 0 ∨ yoe = 399)) := by omega
    have hn : ((12 : Int) + 9) % 12 ≤ 10 →
        (153 * ((12 + 9) % 12) + 2) / 5 + d - 1 <
          (153 * (((12 + 9) % 12) + 1) + 2) / 5 := by omega
    rw [civilFromDays_eq era yoe ((12 + 9) % 12) d
      ((153 * ((12 + 9) % 12) + 2) / 5 + d - 1)
      hyoe0 hyoe1 (by decide) (by decide) hd1 rfl hb hn]
    rw [show ((12 : Int) + 9) % 12 = 9 from by decide]
    norm_num [Prod.mk.injEq]
    omega

/-- The day argument of `daysFromCivil` is linear: the source computes the
epoch day of the first of the month and adds `d - 1`. -/
theorem daysFromCivil_day_shift (y m d : Int) :
    daysFromCivil y m 1 + (d - 1) = daysFromCivil y m d := by
  simp only [daysFromCivil]
  split <;> ring

/-- Composition of the model of `Date.UTC` with the model of `toISOString`
on a valid date-time with a four-digit year not subject to the two-digit
year shift: the fields are rendered back unchanged, with `.000`
milliseconds. -/
theorem toISOString_dateUTC (y mo d h mi s : Int)
    (hy1 : 100 ≤ y) (hy2 : y ≤ 9999)
    (hmo1 : 1 ≤ mo) (hmo2 : mo ≤ 12)
    (hd1 : 1 ≤ d) (hd2 : d ≤ daysInMonth y mo)
    (hh1 : 0 ≤ h) (hh2 : h ≤ 23) (hmi1 : 0 ≤ mi) (hmi2 : mi ≤ 59)
    (hs1 : 0 ≤ s) (hs2 : s ≤ 59) :
    toISOString (dateUTC y (mo - 1) d h mi s) =
      ⟨padNum 4 y.toNat ++ '-' :: padNum 2 mo.toNat ++ '-' :: padNum 2 d.toNat ++
        'T' :: padNum 2 h.toNat ++ ':' :: padNum 2 mi.toNat ++ ':' :: padNum 2 s.toNat ++
        '.' :: padNum 3 0 ++ ['Z']⟩ := by
  have hdu : dateUTC y (mo - 1) d h mi s =
      daysFromCivil y mo d * 86400000 + (h * 3600000 + mi * 60000 + s * 1000) := by
    simp only [dateUTC]
    rw [if_neg (by omega : ¬ (0 ≤ y ∧ y ≤ 99))]
    rw [show (mo - 1) / 12 = 0 from by omega, show (mo - 1) % 12 = mo - 1 from by omega]
    rw [show mo - 1 + 1 = mo from by omega]
    rw [← daysFromCivil_day_shift y mo d]
    ring_nf
  rw [hdu]
  have hcfd := civil_roundtrip y mo d hmo1 hmo2 hd1 hd2
  simp only [toISOString]
  rw [show (daysFromCivil y mo d * 86400000 +
      (h * 3600000 + mi * 60000 + s * 1000)) / 86400000 = daysFromCivil y mo d from by
    omega]
  rw [show (daysFromCivil y mo d * 86400000 +
      (h * 3600000 + mi * 60000 + s * 1000)) % 86400000 =
      h * 3600000 + mi * 60000 + s * 1000 from by omega]
  rw [hcfd]
  rw [show (h * 3600000 + mi * 60000 + s * 1000) / 3600000 = h from by omega]
  rw [show (h * 3600000 + mi * 60000 + s * 1000) % 3600000 / 60000 = mi from by omega]
  rw [show (h * 3600000 + mi * 60000 + s * 1000) % 60000 / 1000 = s from by omega]
  rw [show (h * 3600000 + mi * 60000 + s * 1000) % 1000 = 0 from by omega]
  rw [if_pos (by omega : 0 ≤ (y, mo, d).1 ∧ (y, mo, d).1 ≤ 9999)]
  rfl

theorem natCharsAux_digits :
    ∀ (fuel n : Nat) (acc : List Char), (∀ c ∈ acc, isDigitChar c = true) →
      ∀ c ∈ natCharsAux fuel n acc, isDigitChar c = true := by
  intro fuel
  induction fuel with
  | zero => intro n acc hacc; exact hacc
  | succ fuel ih =>
    intro n acc hacc c hc
    simp only [natCharsAux] at hc
    split at hc
    · rcases List.mem_cons.mp hc with rfl | hc
      · have h10 : n < 10 := by omega
        interval_cases n <;> decide
      · exact hacc c hc
    · refine ih (n / 10) _ ?_ c hc
      intro c' hc'
      rcases List.mem_cons.mp hc' with rfl | hc'
      · have h10 : n % 10 < 10 := Nat.mod_lt _ (by omega)
        generalize hk : n % 10 = k at *
        interval_cases k <;> decide
      · exact hacc c' hc'

theorem padNum_digits (w n : Nat) : ∀ c ∈ padNum w n, isDigitChar c = true := by
  intro c hc
  rcases List.mem_append.mp hc with hc | hc
  · rw [List.eq_of_mem_replicate hc]
    decide
  · exact natCharsAux_digits (n + 1) n [] (by intro c h; cases h) c hc

theorem padNum_ne (w n : Nat) {p : Char} (hp : isDigitChar p = false) :
    ∀ c ∈ padNum w n, c ≠ p := by
  intro c hc he
  rw [he] at hc
  rw [padNum_digits w n p hc] at hp
  cases hp

theorem replaceOnceChar_cons_ne (p : Char) (r : List Char) (c : Char) (cs : List Char)
    (h : c ≠ p) : replaceOnceChar p r (c :: cs) = c :: replaceOnceChar p r cs := by
  simp [replaceOnceChar, h]

theorem replaceOnceChar_append_not_mem (p : Char) (r a b : List Char)
    (ha : ∀ c ∈ a, c ≠ p) : replaceOnceChar p r (a ++ b) = a ++ replaceOnceChar p r b := by
  induction a with
  | nil => rfl
  | cons x xs ih =>
    rw [List.cons_append, replaceOnceChar_cons_ne p r x _ (ha x (by simp)),
      ih (fun c hc => ha c (by simp [hc])), List.cons_append]

theorem replaceOnceChar_pad (p : Char) (r : List Char) (w n : Nat) (b : List Char)
    (hp : isDigitChar p = false) :
    replaceOnceChar p r (padNum w n ++ b) = padNum w n ++ replaceOnceChar p r b :=
  replaceOnceChar_append_not_mem p r _ b (padNum_ne w n hp)

theorem replaceOnceChar_cons_self (p : Char) (r cs : List Char) :
    replaceOnceChar p r (p :: cs) = r ++ cs := by
  simp [replaceOnceChar]

/-- **C1** (amended): for every input matching the pattern
`YYYYMMDDTHHMMSSZ` whose fields form a valid calendar date-time with year
0100–9999, `formatTimestamp` returns the UTC rendering in the form
`YYYY-MM-DD HH:MM:SS.000 UTC` — the same fields zero-padded, with the
`.000` fractional seconds that `toISOString` always emits. (Years 0000–0099
are shifted by +1900 by the `Date.UTC` legacy rule, and out-of-range fields
are normalized by date rollover rather than echoed.) -/
theorem formatTimestamp_matching :
    ∀ (input : String) (y mo d h mi s : Nat),
      tsParse input = some (y, mo, d, h, mi, s) →
      100 ≤ y → y ≤ 9999 → 1 ≤ mo → mo ≤ 12 → 1 ≤ d →
      (d : Int) ≤ daysInMonth (y : Int) (mo : Int) →
      h ≤ 23 → mi ≤ 59 → s ≤ 59 →
      formatTimestamp (vStr input) = .ok (vStr ⟨padNum 4 y ++ '-' :: padNum 2 mo ++
        '-' :: padNum 2 d ++ ' ' :: padNum 2 h ++ ':' :: padNum 2 mi ++
        ':' :: padNum 2 s ++ '.' :: padNum 3 0 ++ " UTC".data⟩) := by
  intro input y mo d h mi s hp hy1 hy2 hmo1 hmo2 hd1 hd2 hh hmi hs
  have hne : input ≠ "" := by
    intro he
    rw [he] at hp
    exact Option.noConfusion hp
  have hb : toBool (vStr input) = true := by
    simp only [JSValue.toBool, bne_iff_ne, ne_eq]
    exact hne
  simp only [formatTimestamp]
  rw [if_neg (show ¬ ¬ (vStr input).toBool = true from by simp [hb])]
  simp only [hp]
  rw [toISOString_dateUTC (y : Int) (mo : Int) (d : Int) (h : Int) (mi : Int) (s : Int)
    (by omega) (by omega) (by omega) (by omega) (by omega) hd2
    (by omega) (by omega) (by omega) (by omega) (by omega) (by omega)]
  have hdata : ∀ l : List Char, (String.mk l).data = l := fun _ => rfl
  rw [hdata]
  simp only [Int.toNat_natCast]
  simp only [List.append_assoc, List.cons_append]
  rw [replaceOnceChar_pad 'T' [' '] 4 y _ (by decide),
    replaceOnceChar_cons_ne 'T' [' '] '-' _ (by decide),
    replaceOnceChar_pad 'T' [' '] 2 mo _ (by decide),
    replaceOnceChar_cons_ne 'T' [' '] '-' _ (by decide),
    replaceOnceChar_pad 'T' [' '] 2 d _ (by decide),
    replaceOnceChar_cons_self 'T' [' '],
    List.singleton_append,
    replaceOnceChar_pad 'Z' (" UTC".data) 4 y _ (by decide),
    replaceOnceChar_cons_ne 'Z' (" UTC".data) '-' _ (by decide),
    replaceOnceChar_pad 'Z' (" UTC".data) 2 mo _ (by decide),
    replaceOnceChar_cons_ne 'Z' (" UTC".data) '-' _ (by decide),
    replaceOnceChar_pad 'Z' (" UTC".data) 2 d _ (by decide),
    replaceOnceChar_cons_ne 'Z' (" UTC".data) ' ' _ (by decide),
    replaceOnceChar_pad 'Z' (" UTC".data) 2 h _ (by decide),
    replaceOnceChar_cons_ne 'Z' (" UTC".data) ':' _ (by decide),
    replaceOnceChar_pad 'Z' (" UTC".data) 2 mi _ (by decide),
    replaceOnceChar_cons_ne 'Z' (" UTC".data) ':' _ (by decide),
    replaceOnceChar_pad 'Z' (" UTC".data) 2 s _ (by decide),
    replaceOnceChar_cons_ne 'Z' (" UTC".data) '.' _ (by decide),
    replaceOnceChar_pad 'Z' (" UTC".data) 3 0 _ (by decide),
    replaceOnceChar_cons_self 'Z' (" UTC".data)]
  simp

/-- **C1** (counterexample): on the spec's own example input, the rendered
string carries `.000` fractional seconds — `toISOString` always emits
milliseconds — so the output is not `"2024-01-15 13:30:00 UTC"`. -/
theorem formatTimestamp_millis_counterexample :
    formatTimestamp (vStr "20240115T133000Z") =
      .ok (vStr "2024-01-15 13:30:00.000 UTC") ∧
    formatTimestamp (vStr "20240115T133000Z") ≠
      .ok (vStr "2024-01-15 13:30:00 UTC") := by
  refine ⟨by decide, by decide⟩

/-- **C1** (amended, witness): the amended rendering at the spec's example
input. -/
theorem formatTimestamp_matching_witness :
    formatTimestamp (vStr "20240115T133000Z") =
      .ok (vStr "2024-01-15 13:30:00.000 UTC") :=
  (formatTimestamp_matching "20240115T133000Z" 2024 1 15 13 30 0 (by decide) (by decide)
    (by decide) (by decide) (by decide) (by decide) (by decide) (by decide) (by decide)
    (by decide)).trans (by decide)
